import Mathlib

/- Verification development for the pavement node generator
   (Pavement_GeneratorLabel.py).  The program's real-number arithmetic is
   modelled exactly over the rationals. -/

namespace Pavement

/-- A node is a coordinate triple (x, y, z), exactly as the generator builds
them; z is always 0. -/
abbrev Node : Type := ℚ × ℚ × ℚ

/-- X-coordinates for half-lane (including tire regions): the fixed station
list X_COORDS of the source (line 6). -/
def X_COORDS : List ℚ := [0, 0.475, 0.725, 2.275, 2.525, 3]

/-- The thickness dictionary passed to generate_pavement_nodes.  Its possible
keys are the nine named layer fields; a field holds none when that key is
absent from the dictionary. -/
structure Layers where
  surface : Option ℚ := none
  binder : Option ℚ := none
  base : Option ℚ := none
  subbase : Option ℚ := none
  rigid_slab : Option ℚ := none
  rigid_subbase : Option ℚ := none
  asphalt : Option ℚ := none
  ctb : Option ℚ := none
  semirigid_subbase : Option ℚ := none

/-- Key-selection block of generate_pavement_nodes (source lines 21-38): the
layer thicknesses read from the dictionary in the fixed order of the chosen
pavement type; none models the KeyError raised on a missing key.  Any tag
other than Flexible and Rigid takes the Semi-Rigid branch, as in the source's
else branch. -/
def thicknessesFor (pavement_type : String) (layers : Layers) : Option (List ℚ) :=
  if pavement_type = "Flexible" then
    match layers.surface, layers.binder, layers.base, layers.subbase with
    | some a, some b, some c, some d => some [a, b, c, d]
    | _, _, _, _ => none
  else if pavement_type = "Rigid" then
    match layers.rigid_slab, layers.rigid_subbase with
    | some a, some b => some [a, b]
    | _, _ => none
  else
    match layers.asphalt, layers.ctb, layers.semirigid_subbase with
    | some a, some b, some c => some [a, b, c]
    | _, _, _ => none

/-- Depth-accumulation loop of generate_pavement_nodes (source lines 40-47),
after the initial 0.0 entry: subtract each thickness in turn and append each
partial result, then subtract a final 1.5 for the subgrade and append once
more. -/
def yCoordsFrom : ℚ → List ℚ → List ℚ
  | current_y, [] => [current_y - 1.5]
  | current_y, t :: ts => (current_y - t) :: yCoordsFrom (current_y - t) ts

/-- The full y_coords list of the source: it starts at 0.0 and continues with
the accumulated depths. -/
def y_coords (thicknesses : List ℚ) : List ℚ :=
  0 :: yCoordsFrom 0 thicknesses

/-- Node-set construction loop (source lines 49-53): insert (x, y, 0.0) into
a set for every y in y_coords and every x in X_COORDS. -/
def nodesOf (ys : List ℚ) : Finset Node :=
  ys.foldl (fun nodes y => X_COORDS.foldl (fun nodes x => insert (x, y, 0) nodes) nodes) ∅

/-- Column polylines (source lines 56-59): one line per station, visiting all
depths in depth order. -/
def col_lines (ys : List ℚ) : List (List Node) :=
  X_COORDS.map fun x => ys.map fun y => (x, y, 0)

/-- Row polylines (source lines 61-64): one line per depth, visiting all
stations in station order. -/
def row_lines (ys : List ℚ) : List (List Node) :=
  ys.map fun y => X_COORDS.map fun x => (x, y, 0)

/-- generate_pavement_nodes (source lines 8-66): the node set together with
the two polyline families; none models the KeyError raised when a required
key is missing from the layer dictionary. -/
def generate_pavement_nodes (pavement_type : String) (layers : Layers) :
    Option (Finset Node × List (List Node) × List (List Node)) :=
  match thicknessesFor pavement_type layers with
  | none => none
  | some ts => some (nodesOf (y_coords ts), col_lines (y_coords ts), row_lines (y_coords ts))

/-- Sort key of on_generate (source line 173): Python sorts the node set by
the tuple (-y, x), compared lexicographically.  The z component is appended
as a last tiebreaker only to make the comparison total on the whole triple
type; every generated node has z = 0, so the tiebreaker can never order two
nodes that the Python key leaves tied. -/
def sortKey (p : Node) : ℚ ×ₗ (ℚ ×ₗ ℚ) :=
  toLex (-p.2.1, toLex (p.1, p.2.2))

/-- The node comparison induced by sortKey. -/
def sortKeyLe (p q : Node) : Prop :=
  sortKey p ≤ sortKey q

instance : DecidableRel sortKeyLe := fun p q =>
  inferInstanceAs (Decidable (sortKey p ≤ sortKey q))

theorem sortKeyLe_iff (p q : Node) :
    sortKeyLe p q ↔
      -p.2.1 < -q.2.1 ∨ (-p.2.1 = -q.2.1 ∧ (p.1 < q.1 ∨ (p.1 = q.1 ∧ p.2.2 ≤ q.2.2))) := by
  simp [sortKeyLe, sortKey, Prod.Lex.le_iff]

theorem sortKey_injective : Function.Injective sortKey := by
  rintro ⟨a1, a2, a3⟩ ⟨b1, b2, b3⟩ h
  simp only [sortKey, Prod.mk.injEq, toLex_inj, neg_inj] at h
  obtain ⟨h1, h2, h3⟩ := h
  simp [h1, h2, h3]

instance : IsTrans Node sortKeyLe :=
  ⟨fun _ _ _ h1 h2 => le_trans h1 h2⟩

instance : IsAntisymm Node sortKeyLe :=
  ⟨fun _ _ h1 h2 => sortKey_injective (le_antisymm h1 h2)⟩

instance : IsTotal Node sortKeyLe :=
  ⟨fun p q => le_total (sortKey p) (sortKey q)⟩

/-- The sorted node list of on_generate (source line 173).  Python sorts the
set by the key (-y, x); since distinct nodes always differ in (x, y), the
result is the unique key-sorted enumeration of the set, independent of the
set's iteration order. -/
def sorted_nodes (nodes : Finset Node) : List Node :=
  nodes.sort sortKeyLe

/-- Numbering step of on_generate (source line 174): 1-based sequential ids
in sorted order. -/
def number_nodes (l : List Node) : List (ℕ × ℚ × ℚ × ℚ) :=
  l.enum.map fun ip => (ip.1 + 1, ip.2)

/-- One line of the exported text file.  The numeric fields are written with
the runtime's default number formatting, which the wire format deliberately
leaves unspecified (spec section 4.2); a line is therefore modelled by its
comma-separated fields rather than by its rendered characters. -/
inductive Line where
  | prep7 : Line
  | nodeLine : ℕ → ℚ → ℚ → ℚ → Line
deriving DecidableEq

/-- write_to_text (source lines 68-76): the literal /PREP7 header line
followed by one N,id,x,y,z line per numbered node, in list order. -/
def write_to_text (nodes_list : List (ℕ × ℚ × ℚ × ℚ)) : List Line :=
  Line.prep7 :: nodes_list.map fun r => Line.nodeLine r.1 r.2.1 r.2.2.1 r.2.2.2

/-- Modelled from the spec: the repository contains no reader for its output
files, but spec section 8 promises that reading the exported file back
reconstructs the numbered node list.  Following the format of spec section 6,
a node record line yields its id and coordinates; the header carries no node
data. -/
def read_line : Line → Option (ℕ × ℚ × ℚ × ℚ)
  | Line.prep7 => none
  | Line.nodeLine nid x y z => some (nid, x, y, z)

/-- Modelled from the spec: read a whole exported file back (spec sections 6
and 8).  The first line must be the literal /PREP7 header; every further line
must be an N,id,x,y,z record, read in order. -/
def read_from_text : List Line → Option (List (ℕ × ℚ × ℚ × ℚ))
  | Line.prep7 :: rest => rest.mapM read_line
  | _ => none

/-- The two blocking error notices of on_generate (spec section 7). -/
inductive Err where
  | invalidSelection : Err
  | invalidThickness : Err
deriving DecidableEq

/-- The form state read by one on_generate invocation: the selected
pavement-type tag, the parse result of each thickness entry (none when
Python's float() would raise ValueError on the entered text), and the path
chosen in the save dialog (none when the user cancels it). -/
structure Form where
  ptype : String
  surface : Option ℚ := none
  binder : Option ℚ := none
  base : Option ℚ := none
  subbase : Option ℚ := none
  rigid_slab : Option ℚ := none
  rigid_subbase : Option ℚ := none
  asphalt : Option ℚ := none
  ctb : Option ℚ := none
  semirigid_subbase : Option ℚ := none
  save_path : Option String := none

/-- Thickness-gathering step of on_generate (source lines 144-166): build the
layer dictionary for the selected type from the form fields; none models the
except-ValueError branch. -/
def gather_layers (f : Form) : Option Layers :=
  if f.ptype = "Flexible" then
    match f.surface, f.binder, f.base, f.subbase with
    | some a, some b, some c, some d =>
        some { surface := some a, binder := some b, base := some c, subbase := some d }
    | _, _, _, _ => none
  else if f.ptype = "Rigid" then
    match f.rigid_slab, f.rigid_subbase with
    | some a, some b => some { rigid_slab := some a, rigid_subbase := some b }
    | _, _ => none
  else
    match f.asphalt, f.ctb, f.semirigid_subbase with
    | some a, some b, some c =>
        some { asphalt := some a, ctb := some b, semirigid_subbase := some c }
    | _, _, _ => none

/-- Result of one generate invocation: a blocking error notice (no file, no
plot), a cancelled save dialog (no file, no plot), or a saved file at the
chosen path.  The plot that follows a successful save performs no further
computation on the nodes. -/
inductive Outcome where
  | errorBox : Err → Outcome
  | canceled : Outcome
  | saved : String → List Line → Outcome
deriving DecidableEq

/-- on_generate (source lines 137-191): validate the selection, gather the
thicknesses, generate the nodes, sort and number them, then write the file at
the chosen path.  The generate-failed branch is unreachable because
gather_layers always supplies every key that generate_pavement_nodes reads
for the selected tag. -/
def on_generate (f : Form) : Outcome :=
  if f.ptype ∈ ["Flexible", "Rigid", "Semi-Rigid"] then
    match gather_layers f with
    | none => Outcome.errorBox Err.invalidThickness
    | some layers =>
      match generate_pavement_nodes f.ptype layers with
      | none => Outcome.errorBox Err.invalidThickness
      | some (nodes, _, _) =>
        match f.save_path with
        | none => Outcome.canceled
        | some path => Outcome.saved path (write_to_text (number_nodes (sorted_nodes nodes)))
  else Outcome.errorBox Err.invalidSelection

/- Helper lemmas about the embedded definitions. -/

theorem foldl_insert_map {α β : Type _} [DecidableEq β] (f : α → β) :
    ∀ (l : List α) (s : Finset β),
      l.foldl (fun acc a => insert (f a) acc) s = s ∪ (l.map f).toFinset
  | [], s => by simp
  | a :: l, s => by
    rw [List.foldl_cons, foldl_insert_map f l (insert (f a) s), List.map_cons,
      List.toFinset_cons, Finset.insert_union, Finset.union_insert]

theorem nodesOf_foldl :
    ∀ (ys : List ℚ) (s : Finset Node),
      ys.foldl (fun nodes y => X_COORDS.foldl (fun nodes x => insert (x, y, 0) nodes) nodes) s
        = s ∪ nodesOf ys
  | [], s => by simp [nodesOf]
  | y :: ys, s => by
    have hstep : ∀ t : Finset Node,
        X_COORDS.foldl (fun nodes x => insert (x, y, 0) nodes) t
          = t ∪ (X_COORDS.map fun x => ((x, y, 0) : Node)).toFinset :=
      fun t => foldl_insert_map (fun x => ((x, y, 0) : Node)) X_COORDS t
    rw [List.foldl_cons, nodesOf_foldl ys, hstep]
    conv_rhs => rw [nodesOf, List.foldl_cons, nodesOf_foldl ys, hstep]
    rw [Finset.empty_union, Finset.union_assoc]

theorem nodesOf_cons (y : ℚ) (ys : List ℚ) :
    nodesOf (y :: ys)
      = (X_COORDS.map fun x => ((x, y, 0) : Node)).toFinset ∪ nodesOf ys := by
  have hstep :
      X_COORDS.foldl (fun nodes x => insert (x, y, 0) nodes) (∅ : Finset Node)
        = ∅ ∪ (X_COORDS.map fun x => ((x, y, 0) : Node)).toFinset :=
    foldl_insert_map (fun x => ((x, y, 0) : Node)) X_COORDS ∅
  rw [nodesOf, List.foldl_cons, nodesOf_foldl ys, hstep, Finset.empty_union]

theorem mem_nodesOf (ys : List ℚ) (p : Node) :
    p ∈ nodesOf ys ↔ ∃ y ∈ ys, ∃ x ∈ X_COORDS, p = (x, y, 0) := by
  induction ys with
  | nil => simp [nodesOf]
  | cons y ys ih =>
    rw [nodesOf_cons, Finset.mem_union, ih]
    simp only [List.mem_toFinset, List.mem_map, List.mem_cons]
    constructor
    · rintro (⟨x, hx, rfl⟩ | ⟨y', hy', x, hx, rfl⟩)
      · exact ⟨y, Or.inl rfl, x, hx, rfl⟩
      · exact ⟨y', Or.inr hy', x, hx, rfl⟩
    · rintro ⟨y', hy' | hy', x, hx, rfl⟩
      · exact Or.inl ⟨x, hx, by rw [hy']⟩
      · exact Or.inr ⟨y', hy', x, hx, rfl⟩

theorem X_COORDS_nodup : X_COORDS.Nodup := by
  rw [X_COORDS]
  norm_num

theorem X_COORDS_nonneg : ∀ x ∈ X_COORDS, 0 ≤ x := by
  intro x hx
  rw [X_COORDS] at hx
  simp only [List.mem_cons, List.not_mem_nil, or_false] at hx
  rcases hx with rfl | rfl | rfl | rfl | rfl | rfl <;> norm_num

theorem X_COORDS_le_three : ∀ x ∈ X_COORDS, x ≤ 3 := by
  intro x hx
  rw [X_COORDS] at hx
  simp only [List.mem_cons, List.not_mem_nil, or_false] at hx
  rcases hx with rfl | rfl | rfl | rfl | rfl | rfl <;> norm_num

theorem card_row (y : ℚ) :
    ((X_COORDS.map fun x => ((x, y, 0) : Node)).toFinset).card = 6 := by
  rw [List.toFinset_card_of_nodup, List.length_map]
  · rfl
  · exact X_COORDS_nodup.map fun a b h => by
      simpa using h

theorem card_nodesOf_of_nodup : ∀ ys : List ℚ, ys.Nodup → (nodesOf ys).card = 6 * ys.length
  | [], _ => by simp [nodesOf]
  | y :: ys, h => by
    have hnd := List.nodup_cons.1 h
    rw [nodesOf_cons, Finset.card_union_of_disjoint, card_row,
      card_nodesOf_of_nodup ys hnd.2]
    · simp [List.length_cons, Nat.mul_succ, Nat.add_comm]
    · rw [Finset.disjoint_left]
      rintro a ha hb
      rw [List.mem_toFinset] at ha
      obtain ⟨x, _, rfl⟩ := List.mem_map.1 ha
      obtain ⟨y', hy', x', _, he⟩ := (mem_nodesOf ys _).1 hb
      have : y = y' := congrArg (fun p => p.2.1) he
      exact hnd.1 (this ▸ hy')

theorem nodesOf_dedup (ys : List ℚ) : nodesOf ys.dedup = nodesOf ys := by
  ext p
  simp [mem_nodesOf, List.mem_dedup]

theorem card_nodesOf (ys : List ℚ) : (nodesOf ys).card = 6 * ys.dedup.length := by
  rw [← nodesOf_dedup]
  exact card_nodesOf_of_nodup _ (List.nodup_dedup ys)

/- Lemmas about the accumulated depth list. -/

theorem yCoordsFrom_length : ∀ (c : ℚ) (ts : List ℚ), (yCoordsFrom c ts).length = ts.length + 1
  | _, [] => rfl
  | c, t :: ts => by
    rw [yCoordsFrom, List.length_cons, yCoordsFrom_length (c - t) ts, List.length_cons]

theorem y_coords_length (ts : List ℚ) : (y_coords ts).length = ts.length + 2 := by
  rw [y_coords, List.length_cons, yCoordsFrom_length]

theorem yCoordsFrom_getLast? : ∀ (c : ℚ) (ts : List ℚ),
    (yCoordsFrom c ts).getLast? = some (c - ts.sum - 1.5)
  | c, [] => by simp [yCoordsFrom]
  | c, t :: ts => by
    have h := yCoordsFrom_getLast? (c - t) ts
    cases hts : yCoordsFrom (c - t) ts with
    | nil => rw [hts] at h; cases h
    | cons a l =>
      rw [yCoordsFrom, hts, List.getLast?_cons_cons, ← hts, h]
      have : c - t - ts.sum - 1.5 = c - (t :: ts).sum - 1.5 := by
        rw [List.sum_cons]
        ring
      rw [this]

theorem yCoordsFrom_le : ∀ (c : ℚ) (ts : List ℚ), (∀ t ∈ ts, 0 ≤ t) →
    ∀ y ∈ yCoordsFrom c ts, y ≤ c
  | c, [], _, y, hy => by
    simp only [yCoordsFrom, List.mem_singleton] at hy
    subst hy
    norm_num
  | c, t :: ts, h, y, hy => by
    simp only [yCoordsFrom, List.mem_cons] at hy
    have ht : 0 ≤ t := h t (by simp)
    rcases hy with rfl | hy
    · linarith
    · have := yCoordsFrom_le (c - t) ts (fun u hu => h u (by simp [hu])) y hy
      linarith

theorem yCoordsFrom_lt : ∀ (c : ℚ) (ts : List ℚ), (∀ t ∈ ts, 0 < t) →
    ∀ y ∈ yCoordsFrom c ts, y < c
  | c, [], _, y, hy => by
    simp only [yCoordsFrom, List.mem_singleton] at hy
    subst hy
    norm_num
  | c, t :: ts, h, y, hy => by
    simp only [yCoordsFrom, List.mem_cons] at hy
    have ht : 0 < t := h t (by simp)
    rcases hy with rfl | hy
    · linarith
    · have := yCoordsFrom_lt (c - t) ts (fun u hu => h u (by simp [hu])) y hy
      linarith

theorem yCoordsFrom_pairwise : ∀ (c : ℚ) (ts : List ℚ), (∀ t ∈ ts, 0 < t) →
    (yCoordsFrom c ts).Pairwise (fun a b => b < a)
  | _, [], _ => by simp [yCoordsFrom]
  | c, t :: ts, h => by
    rw [yCoordsFrom]
    exact List.Pairwise.cons
      (fun y hy => yCoordsFrom_lt (c - t) ts (fun u hu => h u (by simp [hu])) y hy)
      (yCoordsFrom_pairwise (c - t) ts fun u hu => h u (by simp [hu]))

theorem y_coords_pairwise (ts : List ℚ) (h : ∀ t ∈ ts, 0 < t) :
    (y_coords ts).Pairwise (fun a b => b < a) := by
  rw [y_coords]
  exact List.Pairwise.cons (fun y hy => yCoordsFrom_lt 0 ts h y hy)
    (yCoordsFrom_pairwise 0 ts h)

theorem y_coords_nodup (ts : List ℚ) (h : ∀ t ∈ ts, 0 < t) :
    (y_coords ts).Nodup :=
  (y_coords_pairwise ts h).imp fun hab => ne_of_gt hab

theorem y_coords_le_zero (ts : List ℚ) (h : ∀ t ∈ ts, 0 ≤ t) :
    ∀ y ∈ y_coords ts, y ≤ 0 := by
  intro y hy
  rcases List.mem_cons.1 hy with rfl | hy
  · exact le_refl 0
  · exact yCoordsFrom_le 0 ts h y hy

/- The node with the smallest sort key sits at the smallest station on the
highest row; the node with the largest sort key sits at the largest station
on the lowest row. -/

theorem sortKeyLe_refl (p : Node) : sortKeyLe p p :=
  le_refl (sortKey p)

theorem sortKeyLe_origin_row (ys : List ℚ) (ym : ℚ) (hmax : ∀ y ∈ ys, y ≤ ym) :
    ∀ p ∈ nodesOf ys, sortKeyLe (0, ym, 0) p := by
  intro p hp
  obtain ⟨y, hy, x, hx, rfl⟩ := (mem_nodesOf ys p).1 hp
  rw [sortKeyLe_iff]
  rcases lt_or_eq_of_le (hmax y hy) with hlt | heq
  · exact Or.inl (by simpa using hlt)
  · refine Or.inr ⟨by rw [heq], ?_⟩
    rcases lt_or_eq_of_le (X_COORDS_nonneg x hx) with h0 | h0
    · exact Or.inl h0
    · exact Or.inr ⟨h0, le_refl 0⟩

theorem sortKeyLe_last_corner (ys : List ℚ) (ym : ℚ) (hmin : ∀ y ∈ ys, ym ≤ y) :
    ∀ p ∈ nodesOf ys, sortKeyLe p (3, ym, 0) := by
  intro p hp
  obtain ⟨y, hy, x, hx, rfl⟩ := (mem_nodesOf ys p).1 hp
  rw [sortKeyLe_iff]
  rcases lt_or_eq_of_le (hmin y hy) with hlt | heq
  · exact Or.inl (by simpa using hlt)
  · refine Or.inr ⟨by rw [heq], ?_⟩
    rcases lt_or_eq_of_le (X_COORDS_le_three x hx) with h3 | h3
    · exact Or.inl h3
    · exact Or.inr ⟨h3, le_refl 0⟩

theorem corner_mem_nodesOf (ys : List ℚ) (y : ℚ) (hy : y ∈ ys) (x : ℚ)
    (hx : x ∈ X_COORDS) : ((x, y, 0) : Node) ∈ nodesOf ys :=
  (mem_nodesOf ys _).2 ⟨y, hy, x, hx, rfl⟩

/- In a list sorted by the key, a globally minimal element is the head and a
globally maximal element is the last entry. -/

theorem head?_of_min (l : List Node) (hs : l.Sorted sortKeyLe) (m : Node)
    (hm : m ∈ l) (hmin : ∀ p ∈ l, sortKeyLe m p) : l.head? = some m := by
  cases l with
  | nil => cases hm
  | cons a l =>
    have ham : sortKeyLe a m := by
      rcases List.mem_cons.1 hm with rfl | hm'
      · exact sortKeyLe_refl m
      · exact (List.sorted_cons.1 hs).1 m hm'
    have hma : sortKeyLe m a := hmin a (by simp)
    have ham2 : a = m := antisymm ham hma
    rw [List.head?_cons, ham2]

theorem getLast?_of_max : ∀ (l : List Node), l.Sorted sortKeyLe → ∀ (m : Node),
    m ∈ l → (∀ p ∈ l, sortKeyLe p m) → l.getLast? = some m
  | [], _, m, hm, _ => absurd hm (by simp)
  | [a], _, m, hm, _ => by
    simp only [List.mem_singleton] at hm
    rw [hm]
    rfl
  | a :: b :: l, hs, m, hm, hmax => by
    have hs' : (b :: l).Sorted sortKeyLe := (List.sorted_cons.1 hs).2
    have hmem : m ∈ b :: l := by
      rcases List.mem_cons.1 hm with rfl | h
      · have h1 : sortKeyLe m b := (List.sorted_cons.1 hs).1 b (by simp)
        have h2 : sortKeyLe b m := hmax b (by simp)
        have hbm : b = m := antisymm h2 h1
        rw [← hbm]
        simp
      · exact h
    rw [List.getLast?_cons_cons]
    exact getLast?_of_max (b :: l) hs' m hmem fun p hp => hmax p (by simp [hp])

/- Numbering helpers. -/

theorem number_map_fst_aux :
    ∀ (l : List Node) (n : ℕ),
      ((l.enumFrom n).map fun ip => ((ip.1 + 1, ip.2) : ℕ × ℚ × ℚ × ℚ)).map Prod.fst
        = List.range' (n + 1) l.length
  | [], _ => rfl
  | a :: l, n => by
    rw [show List.enumFrom n (a :: l) = (n, a) :: List.enumFrom (n + 1) l from rfl,
      List.map_cons, List.map_cons, List.length_cons,
      show List.range' (n + 1) (l.length + 1) = (n + 1) :: List.range' (n + 2) l.length from rfl,
      number_map_fst_aux l (n + 1)]

theorem number_nodes_map_fst (l : List Node) :
    (number_nodes l).map Prod.fst = List.range' 1 l.length := by
  rw [number_nodes, show l.enum = l.enumFrom 0 from rfl]
  exact number_map_fst_aux l 0

theorem number_map_snd_aux :
    ∀ (l : List Node) (n : ℕ),
      ((l.enumFrom n).map fun ip => ((ip.1 + 1, ip.2) : ℕ × ℚ × ℚ × ℚ)).map Prod.snd = l
  | [], _ => rfl
  | a :: l, n => by
    rw [show List.enumFrom n (a :: l) = (n, a) :: List.enumFrom (n + 1) l from rfl,
      List.map_cons, List.map_cons, number_map_snd_aux l (n + 1)]

theorem number_nodes_map_snd (l : List Node) :
    (number_nodes l).map Prod.snd = l := by
  rw [number_nodes, show l.enum = l.enumFrom 0 from rfl]
  exact number_map_snd_aux l 0

theorem number_nodes_length (l : List Node) : (number_nodes l).length = l.length := by
  rw [number_nodes, List.length_map, List.enum_length]

theorem number_nodes_getElem? (l : List Node) (i : ℕ) :
    (number_nodes l)[i]? = (l[i]?).map fun p => (i + 1, p) := by
  rw [number_nodes, List.getElem?_map, List.getElem?_enum]
  cases l[i]? <;> rfl

theorem number_nodes_head? (l : List Node) :
    (number_nodes l).head? = (l.head?).map fun p => (1, p) := by
  rw [List.head?_eq_getElem?, List.head?_eq_getElem?, number_nodes_getElem?]

/- Round-trip helper for the exporter. -/

theorem read_write_aux : ∀ l : List (ℕ × ℚ × ℚ × ℚ),
    (l.map fun r => Line.nodeLine r.1 r.2.1 r.2.2.1 r.2.2.2).mapM read_line = some l
  | [] => rfl
  | r :: l => by
    rw [List.map_cons, List.mapM_cons, read_write_aux l]
    rfl

theorem y_coords_getLast? (ts : List ℚ) :
    (y_coords ts).getLast? = some (-ts.sum - 1.5) := by
  rw [y_coords]
  cases hts : yCoordsFrom 0 ts with
  | nil =>
    have h := yCoordsFrom_length 0 ts
    rw [hts] at h
    simp at h
  | cons a l =>
    rw [List.getLast?_cons_cons, ← hts, yCoordsFrom_getLast? 0 ts]
    norm_num

theorem length_thicknessesFor_flexible (layers : Layers) (ts : List ℚ)
    (hts : thicknessesFor "Flexible" layers = some ts) : ts.length = 4 := by
  rw [thicknessesFor, if_pos rfl] at hts
  rcases h1 : layers.surface with _ | a <;>
    rcases h2 : layers.binder with _ | b <;>
      rcases h3 : layers.base with _ | c <;>
        rcases h4 : layers.subbase with _ | d <;>
          rw [h1, h2, h3, h4] at hts <;> simp at hts <;> simp [← hts]

theorem length_thicknessesFor_rigid (layers : Layers) (ts : List ℚ)
    (hts : thicknessesFor "Rigid" layers = some ts) : ts.length = 2 := by
  rw [thicknessesFor, if_neg (by decide), if_pos rfl] at hts
  rcases h1 : layers.rigid_slab with _ | a <;>
    rcases h2 : layers.rigid_subbase with _ | b <;>
      rw [h1, h2] at hts <;> simp at hts <;> simp [← hts]

theorem length_thicknessesFor_semirigid (layers : Layers) (ts : List ℚ)
    (hts : thicknessesFor "Semi-Rigid" layers = some ts) : ts.length = 3 := by
  rw [thicknessesFor, if_neg (by decide), if_neg (by decide)] at hts
  rcases h1 : layers.asphalt with _ | a <;>
    rcases h2 : layers.ctb with _ | b <;>
      rcases h3 : layers.semirigid_subbase with _ | c <;>
        rw [h1, h2, h3] at hts <;> simp at hts <;> simp [← hts]

/-- C1: for every valid pavement type and every thickness dictionary binding
all required keys to strictly positive values, the depth sequence has length
equal to that type's layer count plus 2, starts at 0.0, is strictly
decreasing, and its last element is -(sum of the thicknesses) - 1.5. -/
theorem C1_depth_sequence (pt : String) (layers : Layers) (ts : List ℚ)
    (hts : thicknessesFor pt layers = some ts) (hpos : ∀ t ∈ ts, 0 < t) :
    (y_coords ts).length = ts.length + 2 ∧
    (y_coords ts).head? = some 0 ∧
    (y_coords ts).Pairwise (fun a b => b < a) ∧
    (y_coords ts).getLast? = some (-ts.sum - 1.5) ∧
    (pt = "Flexible" → ts.length = 4) ∧
    (pt = "Rigid" → ts.length = 2) ∧
    (pt = "Semi-Rigid" → ts.length = 3) := by
  refine ⟨y_coords_length ts, rfl, y_coords_pairwise ts hpos, y_coords_getLast? ts,
    ?_, ?_, ?_⟩
  · rintro rfl
    exact length_thicknessesFor_flexible layers ts hts
  · rintro rfl
    exact length_thicknessesFor_rigid layers ts hts
  · rintro rfl
    exact length_thicknessesFor_semirigid layers ts hts

/-- Witness for C1 at the Rigid defaults rigid_slab = rigid_subbase = 0.2. -/
theorem C1_depth_sequence_witness :
    thicknessesFor "Rigid" { rigid_slab := some 0.2, rigid_subbase := some 0.2 }
        = some [0.2, 0.2] ∧
    (∀ t ∈ [(0.2 : ℚ), 0.2], 0 < t) ∧
    ((y_coords [(0.2 : ℚ), 0.2]).length = [(0.2 : ℚ), 0.2].length + 2 ∧
     (y_coords [(0.2 : ℚ), 0.2]).head? = some 0 ∧
     (y_coords [(0.2 : ℚ), 0.2]).Pairwise (fun a b => b < a) ∧
     (y_coords [(0.2 : ℚ), 0.2]).getLast? = some (-[(0.2 : ℚ), 0.2].sum - 1.5) ∧
     ("Rigid" = "Flexible" → ([(0.2 : ℚ), 0.2] : List ℚ).length = 4) ∧
     ("Rigid" = "Rigid" → ([(0.2 : ℚ), 0.2] : List ℚ).length = 2) ∧
     ("Rigid" = "Semi-Rigid" → ([(0.2 : ℚ), 0.2] : List ℚ).length = 3)) :=
  ⟨rfl, by norm_num,
    C1_depth_sequence "Rigid" { rigid_slab := some 0.2, rigid_subbase := some 0.2 }
      [0.2, 0.2] rfl (by norm_num)⟩

/-- C4: the first line of the exported file is the literal /PREP7 header, and
reading the file back (read_from_text, modelled from the spec) reconstructs
exactly the numbered node list that was written. -/
theorem C4_round_trip (l : List (ℕ × ℚ × ℚ × ℚ)) :
    (write_to_text l).head? = some Line.prep7 ∧
    read_from_text (write_to_text l) = some l :=
  ⟨rfl, read_write_aux l⟩

/-- C5: whenever the pavement-type value is not one of the three tags, the
generate pipeline stops with the invalid-selection error notice and no node
set is built. -/
theorem C5_invalid_type (f : Form)
    (h : f.ptype ∉ (["Flexible", "Rigid", "Semi-Rigid"] : List String)) :
    on_generate f = Outcome.errorBox Err.invalidSelection := by
  rw [on_generate, if_neg h]

/-- Witness for C5 at the empty-string tag. -/
theorem C5_invalid_type_witness :
    ({ ptype := "" } : Form).ptype ∉ (["Flexible", "Rigid", "Semi-Rigid"] : List String) ∧
    on_generate { ptype := "" } = Outcome.errorBox Err.invalidSelection :=
  ⟨by decide, C5_invalid_type { ptype := "" } (by decide)⟩

/-- C6: an unselected pavement type terminates the pipeline with the
invalid-selection notice, and a thickness field that does not parse
terminates it with the invalid-thickness notice; in both cases the outcome is
an error box, not a saved file, so the export step is never reached. -/
theorem C6_error_paths (f : Form) :
    (f.ptype ∉ (["Flexible", "Rigid", "Semi-Rigid"] : List String) →
       on_generate f = Outcome.errorBox Err.invalidSelection) ∧
    (f.ptype = "Flexible" →
       f.surface = none ∨ f.binder = none ∨ f.base = none ∨ f.subbase = none →
       on_generate f = Outcome.errorBox Err.invalidThickness) ∧
    (f.ptype = "Rigid" →
       f.rigid_slab = none ∨ f.rigid_subbase = none →
       on_generate f = Outcome.errorBox Err.invalidThickness) ∧
    (f.ptype = "Semi-Rigid" →
       f.asphalt = none ∨ f.ctb = none ∨ f.semirigid_subbase = none →
       on_generate f = Outcome.errorBox Err.invalidThickness) := by
  refine ⟨fun h => by rw [on_generate, if_neg h], ?_, ?_, ?_⟩
  · intro h hf
    have hg : gather_layers f = none := by
      rw [gather_layers, if_pos h]
      rcases h1 : f.surface with _ | a <;>
        rcases h2 : f.binder with _ | b <;>
          rcases h3 : f.base with _ | c <;>
            rcases h4 : f.subbase with _ | d <;>
              first
                | rfl
                | (rcases hf with hf | hf | hf | hf <;> simp_all)
    rw [on_generate, if_pos (by simp [h]), hg]
  · intro h hf
    have hg : gather_layers f = none := by
      rw [gather_layers, if_neg (by rw [h]; decide), if_pos h]
      rcases h1 : f.rigid_slab with _ | a <;>
        rcases h2 : f.rigid_subbase with _ | b <;>
          first
            | rfl
            | (rcases hf with hf | hf <;> simp_all)
    rw [on_generate, if_pos (by simp [h]), hg]
  · intro h hf
    have hg : gather_layers f = none := by
      rw [gather_layers, if_neg (by rw [h]; decide), if_neg (by rw [h]; decide)]
      rcases h1 : f.asphalt with _ | a <;>
        rcases h2 : f.ctb with _ | b <;>
          rcases h3 : f.semirigid_subbase with _ | c <;>
            first
              | rfl
              | (rcases hf with hf | hf | hf <;> simp_all)
    rw [on_generate, if_pos (by simp [h]), hg]

/-- Witness for C6: one invocation with every Flexible thickness field left
unparsed, and one invocation with no valid pavement type selected. -/
theorem C6_error_paths_witness :
    ({ ptype := "Flexible" } : Form).surface = none ∧
    on_generate { ptype := "Flexible" } = Outcome.errorBox Err.invalidThickness ∧
    on_generate { ptype := "" } = Outcome.errorBox Err.invalidSelection :=
  ⟨rfl, (C6_error_paths { ptype := "Flexible" }).2.1 rfl (Or.inl rfl),
    (C6_error_paths { ptype := "" }).1 (by decide)⟩

/-- C2 as frozen is false on the code: thicknesses are not sign-checked, and
a negative thickness lifts a later row above y = 0, so the node numbered 1
need not be the origin.  Concretely, Rigid with rigid_slab = -1 and
rigid_subbase = 0.2 gives depths [0, 1, 0.8, -0.7] and the first numbered
node is (0, 1, 0). -/
theorem C2_counterexample :
    thicknessesFor "Rigid" { rigid_slab := some (-1), rigid_subbase := some 0.2 }
        = some [-1, 0.2] ∧
    (number_nodes (sorted_nodes (nodesOf (y_coords [-1, 0.2])))).head?
        ≠ some (1, ((0 : ℚ), (0 : ℚ), (0 : ℚ))) := by
  constructor
  · rfl
  · have hys : y_coords [(-1 : ℚ), 0.2] = [0, 1, 0.8, -0.7] := by
      norm_num [y_coords, yCoordsFrom]
    have hhead : (sorted_nodes (nodesOf ([0, 1, 0.8, -0.7] : List ℚ))).head?
        = some ((0 : ℚ), (1 : ℚ), (0 : ℚ)) := by
      apply head?_of_min
      · exact Finset.sort_sorted _ _
      · exact (Finset.mem_sort sortKeyLe).2 (corner_mem_nodesOf _ 1 (by norm_num) 0 (by simp [X_COORDS]))
      · intro p hp
        refine sortKeyLe_origin_row _ 1 ?_ p ((Finset.mem_sort sortKeyLe).1 hp)
        intro y hy
        simp only [List.mem_cons, List.not_mem_nil, or_false] at hy
        rcases hy with rfl | rfl | rfl | rfl <;> norm_num
    rw [number_nodes_head?, hys, hhead]
    simp

/-- C2 (amended): provided the thicknesses are all nonnegative — which the
original claim implicitly assumed and the code does not check — numbering is
the contiguous range 1..N listed in descending-y-then-ascending-x order, and
the node numbered 1 is exactly (0, 0, 0). -/
theorem C2_numbering (pt : String) (layers : Layers) (ts : List ℚ)
    (_hts : thicknessesFor pt layers = some ts) (hnn : ∀ t ∈ ts, 0 ≤ t) :
    (number_nodes (sorted_nodes (nodesOf (y_coords ts)))).map Prod.fst
        = List.range' 1 (nodesOf (y_coords ts)).card ∧
    (sorted_nodes (nodesOf (y_coords ts))).Sorted sortKeyLe ∧
    (number_nodes (sorted_nodes (nodesOf (y_coords ts)))).head?
        = some (1, ((0 : ℚ), (0 : ℚ), (0 : ℚ))) := by
  refine ⟨?_, Finset.sort_sorted _ _, ?_⟩
  · rw [number_nodes_map_fst, sorted_nodes, Finset.length_sort]
  · have hhead : (sorted_nodes (nodesOf (y_coords ts))).head?
        = some ((0 : ℚ), (0 : ℚ), (0 : ℚ)) := by
      apply head?_of_min
      · exact Finset.sort_sorted _ _
      · exact (Finset.mem_sort sortKeyLe).2
          (corner_mem_nodesOf _ 0 (by simp [y_coords]) 0 (by simp [X_COORDS]))
      · intro p hp
        exact sortKeyLe_origin_row (y_coords ts) 0 (y_coords_le_zero ts hnn) p
          ((Finset.mem_sort sortKeyLe).1 hp)
    rw [number_nodes_head?, hhead]
    rfl

/-- Witness for C2 (amended) at the Rigid defaults. -/
theorem C2_numbering_witness :
    thicknessesFor "Rigid" { rigid_slab := some 0.2, rigid_subbase := some 0.2 }
        = some [0.2, 0.2] ∧
    (∀ t ∈ [(0.2 : ℚ), 0.2], 0 ≤ t) ∧
    ((number_nodes (sorted_nodes (nodesOf (y_coords [0.2, 0.2])))).map Prod.fst
        = List.range' 1 (nodesOf (y_coords [0.2, 0.2])).card ∧
     (sorted_nodes (nodesOf (y_coords [0.2, 0.2]))).Sorted sortKeyLe ∧
     (number_nodes (sorted_nodes (nodesOf (y_coords [0.2, 0.2])))).head?
        = some (1, ((0 : ℚ), (0 : ℚ), (0 : ℚ)))) :=
  ⟨rfl, by norm_num,
    C2_numbering "Rigid" { rigid_slab := some 0.2, rigid_subbase := some 0.2 }
      [0.2, 0.2] rfl (by norm_num)⟩

/-- C3 as frozen is false on the code: zero and negative thicknesses are
accepted, a zero thickness makes two depths coincide, and the set container
deduplicates nodes, dropping the count below 6 × (depth-sequence length).
Concretely, Rigid with rigid_slab = 0 and rigid_subbase = 0.2 has a 4-entry
depth sequence but only 18 distinct nodes instead of 24. -/
theorem C3_counterexample :
    thicknessesFor "Rigid" { rigid_slab := some 0, rigid_subbase := some 0.2 }
        = some [0, 0.2] ∧
    (nodesOf (y_coords [0, 0.2])).card ≠ 6 * (y_coords [0, 0.2]).length := by
  constructor
  · rfl
  · have hys : y_coords [(0 : ℚ), 0.2] = [0, 0, -0.2, -1.7] := by
      norm_num [y_coords, yCoordsFrom]
    have hd : ([0, 0, -0.2, -1.7] : List ℚ).dedup = [0, -0.2, -1.7] := by
      rw [List.dedup_cons_of_mem (by norm_num), List.dedup_cons_of_not_mem (by norm_num),
        List.dedup_cons_of_not_mem (by norm_num), List.dedup_cons_of_not_mem (by norm_num),
        List.dedup_nil]
    rw [hys, card_nodesOf, hd]
    norm_num

/-- C3 (amended): the node set always has exactly 6 × (number of distinct
depth values) elements — distinctness being inherent in the set container —
and when the thicknesses are strictly positive the depths are pairwise
distinct, so the count equals 6 × (depth-sequence length) as the original
claim stated. -/
theorem C3_node_count (pt : String) (layers : Layers) (ts : List ℚ)
    (_hts : thicknessesFor pt layers = some ts) :
    (nodesOf (y_coords ts)).card = 6 * (y_coords ts).dedup.length ∧
    ((∀ t ∈ ts, 0 < t) → (nodesOf (y_coords ts)).card = 6 * (y_coords ts).length) := by
  refine ⟨card_nodesOf _, fun hpos => ?_⟩
  rw [card_nodesOf, (y_coords_nodup ts hpos).dedup]

/-- Witness for C3 (amended) at the Rigid defaults. -/
theorem C3_node_count_witness :
    thicknessesFor "Rigid" { rigid_slab := some 0.2, rigid_subbase := some 0.2 }
        = some [0.2, 0.2] ∧
    ((nodesOf (y_coords [0.2, 0.2])).card = 6 * (y_coords [0.2, 0.2]).dedup.length ∧
     ((∀ t ∈ [(0.2 : ℚ), 0.2], 0 < t) →
        (nodesOf (y_coords [0.2, 0.2])).card = 6 * (y_coords [0.2, 0.2]).length)) :=
  ⟨rfl, C3_node_count "Rigid" { rigid_slab := some 0.2, rigid_subbase := some 0.2 }
    [0.2, 0.2] rfl⟩

/-- C7: the worked Flexible example with surface 0.06, binder 0.08, base
0.20, subbase 0.20: depth sequence [0, -0.06, -0.14, -0.34, -0.54, -2.04],
exactly 36 nodes, node 1 at the origin and node 36 at (3, -2.04, 0). -/
theorem C7_flexible_example :
    thicknessesFor "Flexible"
        { surface := some 0.06, binder := some 0.08, base := some 0.2, subbase := some 0.2 }
      = some [0.06, 0.08, 0.2, 0.2] ∧
    y_coords [0.06, 0.08, 0.2, 0.2] = [0, -0.06, -0.14, -0.34, -0.54, -2.04] ∧
    (nodesOf (y_coords [0.06, 0.08, 0.2, 0.2])).card = 36 ∧
    (number_nodes (sorted_nodes (nodesOf (y_coords [0.06, 0.08, 0.2, 0.2])))).head?
      = some (1, ((0 : ℚ), (0 : ℚ), (0 : ℚ))) ∧
    (number_nodes (sorted_nodes (nodesOf (y_coords [0.06, 0.08, 0.2, 0.2]))))[35]?
      = some (36, ((3 : ℚ), (-2.04 : ℚ), (0 : ℚ))) := by
  have hys : y_coords [(0.06 : ℚ), 0.08, 0.2, 0.2]
      = [0, -0.06, -0.14, -0.34, -0.54, -2.04] := by
    norm_num [y_coords, yCoordsFrom]
  have hnd : ([0, -0.06, -0.14, -0.34, -0.54, -2.04] : List ℚ).Nodup := by norm_num
  have hcard : (nodesOf (y_coords [(0.06 : ℚ), 0.08, 0.2, 0.2])).card = 36 := by
    rw [hys, card_nodesOf_of_nodup _ hnd]
    rfl
  refine ⟨rfl, hys, hcard, ?_, ?_⟩
  · have hhead : (sorted_nodes (nodesOf (y_coords [(0.06 : ℚ), 0.08, 0.2, 0.2]))).head?
        = some ((0 : ℚ), (0 : ℚ), (0 : ℚ)) := by
      apply head?_of_min
      · exact Finset.sort_sorted _ _
      · exact (Finset.mem_sort sortKeyLe).2
          (corner_mem_nodesOf _ 0 (by simp [y_coords]) 0 (by simp [X_COORDS]))
      · intro p hp
        refine sortKeyLe_origin_row _ 0 ?_ p ((Finset.mem_sort sortKeyLe).1 hp)
        rw [hys]
        intro y hy
        simp only [List.mem_cons, List.not_mem_nil, or_false] at hy
        rcases hy with rfl | rfl | rfl | rfl | rfl | rfl <;> norm_num
    rw [number_nodes_head?, hhead]
    rfl
  · have hlast : (sorted_nodes (nodesOf (y_coords [(0.06 : ℚ), 0.08, 0.2, 0.2]))).getLast?
        = some ((3 : ℚ), (-2.04 : ℚ), (0 : ℚ)) := by
      apply getLast?_of_max
      · exact Finset.sort_sorted _ _
      · exact (Finset.mem_sort sortKeyLe).2
          (corner_mem_nodesOf _ (-2.04) (by rw [hys]; norm_num) 3 (by simp [X_COORDS]))
      · intro p hp
        refine sortKeyLe_last_corner _ (-2.04) ?_ p ((Finset.mem_sort sortKeyLe).1 hp)
        rw [hys]
        intro y hy
        simp only [List.mem_cons, List.not_mem_nil, or_false] at hy
        rcases hy with rfl | rfl | rfl | rfl | rfl | rfl <;> norm_num
    have hlen : (sorted_nodes (nodesOf (y_coords [(0.06 : ℚ), 0.08, 0.2, 0.2]))).length
        = 36 := by
      rw [sorted_nodes, Finset.length_sort]
      exact hcard
    have h35 : (sorted_nodes (nodesOf (y_coords [(0.06 : ℚ), 0.08, 0.2, 0.2])))[35]?
        = some ((3 : ℚ), (-2.04 : ℚ), (0 : ℚ)) := by
      rw [show (35 : ℕ)
          = (sorted_nodes (nodesOf (y_coords [(0.06 : ℚ), 0.08, 0.2, 0.2]))).length - 1
        from by rw [hlen], ← List.getLast?_eq_getElem?]
      exact hlast
    rw [number_nodes_getElem?, h35]
    rfl

/-- C8: build returns one column polyline per station (6 of them), each
listing that station's nodes across all depths in depth order, and one row
polyline per depth, each listing that depth's nodes across all stations in
station order; both families are pure functions of the input, hence
identical across invocations with the same input. -/
theorem C8_plot_lines (pt : String) (layers : Layers) (ts : List ℚ)
    (hts : thicknessesFor pt layers = some ts) :
    generate_pavement_nodes pt layers
        = some (nodesOf (y_coords ts), col_lines (y_coords ts), row_lines (y_coords ts)) ∧
    (col_lines (y_coords ts)).length = 6 ∧
    (row_lines (y_coords ts)).length = (y_coords ts).length ∧
    (∀ (i : ℕ) (x : ℚ), X_COORDS[i]? = some x →
        (col_lines (y_coords ts))[i]? = some ((y_coords ts).map fun y => ((x, y, 0) : Node))) ∧
    (∀ (j : ℕ) (y : ℚ), (y_coords ts)[j]? = some y →
        (row_lines (y_coords ts))[j]? = some (X_COORDS.map fun x => ((x, y, 0) : Node))) := by
  refine ⟨by rw [generate_pavement_nodes, hts], by rw [col_lines, List.length_map]; rfl,
    by rw [row_lines, List.length_map], ?_, ?_⟩
  · intro i x hx
    rw [col_lines, List.getElem?_map, hx]
    rfl
  · intro j y hy
    rw [row_lines, List.getElem?_map, hy]
    rfl

/-- Witness for C8 at the Rigid defaults. -/
theorem C8_plot_lines_witness :
    thicknessesFor "Rigid" { rigid_slab := some 0.2, rigid_subbase := some 0.2 }
        = some [0.2, 0.2] ∧
    (col_lines (y_coords [0.2, 0.2])).length = 6 ∧
    (row_lines (y_coords [0.2, 0.2])).length = (y_coords [0.2, 0.2]).length :=
  ⟨rfl,
    ((C8_plot_lines "Rigid" { rigid_slab := some 0.2, rigid_subbase := some 0.2 }
      [0.2, 0.2] rfl).2).1,
    (((C8_plot_lines "Rigid" { rigid_slab := some 0.2, rigid_subbase := some 0.2 }
      [0.2, 0.2] rfl).2).2).1⟩

/-- C9: for every accepted input — zero and negative thicknesses included,
which can make depth values coincide — the assigned ids are exactly the
contiguous range 1..N for N the (possibly deduplicated) node-set size, the
numbered nodes enumerate exactly the surviving node set, and N never exceeds
6 × (depth-sequence length). -/
theorem C9_contiguous_ids (pt : String) (layers : Layers) (ts : List ℚ)
    (_hts : thicknessesFor pt layers = some ts) :
    (number_nodes (sorted_nodes (nodesOf (y_coords ts)))).map Prod.fst
        = List.range' 1 (nodesOf (y_coords ts)).card ∧
    (∀ p : Node, p ∈ (number_nodes (sorted_nodes (nodesOf (y_coords ts)))).map Prod.snd
        ↔ p ∈ nodesOf (y_coords ts)) ∧
    (nodesOf (y_coords ts)).card ≤ 6 * (y_coords ts).length := by
  refine ⟨?_, ?_, ?_⟩
  · rw [number_nodes_map_fst, sorted_nodes, Finset.length_sort]
  · intro p
    rw [number_nodes_map_snd, sorted_nodes]
    exact Finset.mem_sort sortKeyLe
  · rw [card_nodesOf]
    have h := (List.dedup_sublist (y_coords ts)).length_le
    omega

/-- Witness for C9 at a zero thickness, where deduplication actually
shrinks the node set. -/
theorem C9_contiguous_ids_witness :
    thicknessesFor "Rigid" { rigid_slab := some 0, rigid_subbase := some 0.2 }
        = some [0, 0.2] ∧
    ((number_nodes (sorted_nodes (nodesOf (y_coords [0, 0.2])))).map Prod.fst
        = List.range' 1 (nodesOf (y_coords [0, 0.2])).card ∧
     (∀ p : Node, p ∈ (number_nodes (sorted_nodes (nodesOf (y_coords [0, 0.2])))).map Prod.snd
        ↔ p ∈ nodesOf (y_coords [0, 0.2])) ∧
     (nodesOf (y_coords [0, 0.2])).card ≤ 6 * (y_coords [0, 0.2]).length) :=
  ⟨rfl, C9_contiguous_ids "Rigid" { rigid_slab := some 0, rigid_subbase := some 0.2 }
    [0, 0.2] rfl⟩

/-- C10: the polyline families are built from the raw depth list, not from
the deduplicated node set: always exactly 6 column lines and
(layer count + 2) row lines; equal depth entries give literally identical
row polylines, and then the polylines reference points with greater total
multiplicity than the node set holds. -/
theorem C10_raw_polylines (pt : String) (layers : Layers) (ts : List ℚ)
    (_hts : thicknessesFor pt layers = some ts) :
    (col_lines (y_coords ts)).length = 6 ∧
    (row_lines (y_coords ts)).length = ts.length + 2 ∧
    (∀ (i j : ℕ) (yi yj : ℚ),
        (y_coords ts)[i]? = some yi → (y_coords ts)[j]? = some yj → yi = yj →
        (row_lines (y_coords ts))[i]? = (row_lines (y_coords ts))[j]?) ∧
    (¬ (y_coords ts).Nodup →
        (nodesOf (y_coords ts)).card < 6 * (row_lines (y_coords ts)).length) := by
  refine ⟨by rw [col_lines, List.length_map]; rfl,
    by rw [row_lines, List.length_map, y_coords_length], ?_, ?_⟩
  · intro i j yi yj hi hj hij
    rw [row_lines, List.getElem?_map, List.getElem?_map, hi, hj, hij]
  · intro hnd
    rw [card_nodesOf, row_lines, List.length_map]
    have hsub := List.dedup_sublist (y_coords ts)
    have hle := hsub.length_le
    rcases lt_or_eq_of_le hle with h | h
    · omega
    · exfalso
      apply hnd
      rw [← hsub.eq_of_length h]
      exact List.nodup_dedup _

/-- Witness for C10 at a zero thickness, where two rows coincide. -/
theorem C10_raw_polylines_witness :
    thicknessesFor "Rigid" { rigid_slab := some 0, rigid_subbase := some 0.2 }
        = some [0, 0.2] ∧
    (col_lines (y_coords [0, 0.2])).length = 6 ∧
    (row_lines (y_coords [0, 0.2])).length = ([(0 : ℚ), 0.2] : List ℚ).length + 2 :=
  ⟨rfl,
    (C10_raw_polylines "Rigid" { rigid_slab := some 0, rigid_subbase := some 0.2 }
      [0, 0.2] rfl).1,
    ((C10_raw_polylines "Rigid" { rigid_slab := some 0, rigid_subbase := some 0.2 }
      [0, 0.2] rfl).2).1⟩

end Pavement
